import Mathlib

/-!
# A verification model of the `search-light` library

This file gives a shallow embedding, in Lean 4, of the `search-light`
JavaScript search-and-filter engine (the IIFE source variant, which agrees
with the built `dist/search-light.js`), together with theorems that settle
the behavioural claims about it.

Modelling conventions:
* JavaScript values are modelled by the inductive `JsVal`; numbers are
  modelled as integers (the library only adds booleans and split counts,
  so no claim depends on float semantics).
* Mutable instance state (`s_`) and options (`o_`) become explicit records
  threaded through the operations; a method that mutates `this` becomes a
  function `SL → SL` (or `SL → SL × α` when it also returns a value).
* Operations that can throw a `TypeError` return `Except String _`.
* `Array.prototype.sort` (guaranteed stable since ES2019) is modelled by
  the stable `List.insertionSort`; for a comparator inducing a total
  preorder the stable sorted result is unique, so the choice of stable
  algorithm is immaterial.
-/

set_option linter.unusedVariables false

namespace SearchLight

/-- Model of a JavaScript value.  Numbers are integers (see header). -/
inductive JsVal where
  | vStr (s : String)
  | vNum (n : Int)
  | vBool (b : Bool)
  | vNull
  | vUndefined
  | vArr (elems : List JsVal)
  | vObj (fields : List (String × JsVal))

/-- A key of the internal `Map`: an array index or an object property name. -/
inductive Key where
  | nat (n : Nat)
  | str (s : String)
deriving Repr, DecidableEq

/-- A `Match` record `[key, relevance, missingTerms]`. -/
structure MatchRec where
  key : Key
  rel : Int
  missing : String
deriving Repr, DecidableEq

/-- A normalized filter triple `[key, operator, value]`. -/
structure Filter where
  key : JsVal
  op : JsVal
  value : JsVal

/-! ## String primitives (models of the JavaScript string operations used) -/

/-- JavaScript whitespace as far as the library uses it (ASCII blanks). -/
def wsChar (c : Char) : Bool :=
  c = ' ' || c = '\t' || c = '\n' || c = '\r'

/-- Model of `String.prototype.trim`. -/
def jsTrim (s : String) : String :=
  ⟨((s.data.dropWhile wsChar).reverse.dropWhile wsChar).reverse⟩

/-- ASCII case folding for one character (model of `toLowerCase` on the
ASCII range, which is all the library's own data uses). -/
def lowerChar (c : Char) : Char :=
  if 'A' ≤ c ∧ c ≤ 'Z' then Char.ofNat (c.toNat + 32) else c

/-- Model of `String.prototype.toLowerCase`. -/
def jsLower (s : String) : String :=
  ⟨s.data.map lowerChar⟩

/-- Does `sep` occur at the head of `s`? -/
def headMatch : List Char → List Char → Bool
  | [], _ => true
  | _ :: _, [] => false
  | a :: as, b :: bs => a = b && headMatch as bs

/-- Split scanner for a non-empty separator: `skip` counts separator
characters still to be consumed after a hit, `acc` is the piece being
built.  Occurrences are found left to right and never overlap, exactly as
in `String.prototype.split`. -/
def splitScan (sep : List Char) : List Char → Nat → List Char → List (List Char)
  | [], _, acc => [acc]
  | _ :: rest, Nat.succ k, acc => splitScan sep rest k acc
  | c :: rest, 0, acc =>
    if headMatch sep (c :: rest) then
      acc :: splitScan sep rest (sep.length - 1) []
    else
      splitScan sep rest 0 (acc ++ [c])

/-- Model of `subject.split(sep)` at the character-list level: an empty
separator splits into single characters (so `"".split("")` is `[]`). -/
def jsSplitChars (sep s : List Char) : List (List Char) :=
  match sep with
  | [] => s.map (fun c => [c])
  | _ :: _ => splitScan sep s 0 []

/-- Model of `String.prototype.split`. -/
def jsSplit (sep s : String) : List String :=
  (jsSplitChars sep.data s.data).map (fun l => ⟨l⟩)

/-- `Array.prototype.join`-style interleaving of a separator. -/
def joinSep (sep : String) : List String → String
  | [] => ""
  | [x] => x
  | x :: xs => x ++ sep ++ joinSep sep xs

/-- JavaScript `<` on two strings compares code units lexicographically;
this is that comparison on the character lists. -/
def strLtB : List Char → List Char → Bool
  | [], [] => false
  | [], _ :: _ => true
  | _ :: _, [] => false
  | a :: as, b :: bs =>
    if a.toNat < b.toNat then true
    else if b.toNat < a.toNat then false
    else strLtB as bs

/-- JavaScript `<` on strings. -/
def jsStrLt (a b : String) : Bool := strLtB a.data b.data

/-! ## JavaScript value primitives -/

/-- The string produced by the `typeof` operator on a modelled value. -/
def typeofStr : JsVal → String
  | .vStr _ => "string"
  | .vNum _ => "number"
  | .vBool _ => "boolean"
  | .vUndefined => "undefined"
  | .vNull => "object"
  | .vArr _ => "object"
  | .vObj _ => "object"

/-- JavaScript truthiness.  (`NaN` does not arise: numbers are integers.) -/
def isTruthy : JsVal → Bool
  | .vStr s => s ≠ ""
  | .vNum n => n ≠ 0
  | .vBool b => b
  | .vNull => false
  | .vUndefined => false
  | .vArr _ => true
  | .vObj _ => true

/-- Is the value `undefined` (the `typeof value === 'undefined'` test)? -/
def isUndef : JsVal → Bool
  | .vUndefined => true
  | _ => false

mutual
/-- Model of JavaScript `ToString` on the values the library handles; an
array stringifies as its elements joined with `,` where `null` and
`undefined` render empty, an object as `"[object Object]"`. -/
def jsToStr : JsVal → String
  | .vStr s => s
  | .vNum n => toString n
  | .vBool b => if b then "true" else "false"
  | .vNull => "null"
  | .vUndefined => "undefined"
  | .vArr l => arrJoinComma l
  | .vObj _ => "[object Object]"

/-- `Array.prototype.join(',')` as used by array `ToString`. -/
def arrJoinComma : List JsVal → String
  | [] => ""
  | [.vNull] => ""
  | [.vUndefined] => ""
  | [v] => jsToStr v
  | .vNull :: rest => "," ++ arrJoinComma rest
  | .vUndefined :: rest => "," ++ arrJoinComma rest
  | v :: rest => jsToStr v ++ "," ++ arrJoinComma rest
end

/-- One piece of an `Array.prototype.join`: `null` and `undefined` render
as the empty string, every other value through `ToString`. -/
def joinPiece (v : JsVal) : String :=
  match v with
  | .vNull => ""
  | .vUndefined => ""
  | _ => jsToStr v

/-- Join a list of values with a separator, `Array.prototype.join` style. -/
def jsJoin (sep : String) (l : List JsVal) : String :=
  joinSep sep (l.map joinPiece)

/-- Parse a decimal integer literal (with optional sign), the fragment of
JavaScript `ToNumber` string conversion the model needs; `none` plays the
role of `NaN`.  (Floats, exponents and hex literals are not modelled.) -/
def strToNumAux : List Char → Option Int
  | [] => none
  | l =>
    if l.all (fun c => c.isDigit) then
      some (l.foldl (fun acc c => acc * 10 + (c.toNat - '0'.toNat : Int)) 0)
    else none

/-- JavaScript `ToNumber` on a string: blank strings convert to `0`. -/
def strToNum (s : String) : Option Int :=
  let t := (s.data.dropWhile wsChar).reverse.dropWhile wsChar |>.reverse
  match t with
  | [] => some 0
  | '-' :: rest => (strToNumAux rest).map (fun n => -n)
  | '+' :: rest => strToNumAux rest
  | _ => strToNumAux t

/-- JavaScript `ToNumber`; `none` models `NaN`. -/
def jsToNum : JsVal → Option Int
  | .vNum n => some n
  | .vBool b => some (if b then 1 else 0)
  | .vNull => some 0
  | .vUndefined => none
  | .vStr s => strToNum s
  | v => strToNum (jsToStr v)

/-- `ToPrimitive` as the comparison operators see it: arrays and plain
objects convert through their `ToString`. -/
def toPrim : JsVal → JsVal
  | .vArr l => .vStr (jsToStr (.vArr l))
  | .vObj f => .vStr (jsToStr (.vObj f))
  | v => v

/-- Model of strict equality `===`.  Two distinct object or array
references are never strictly equal; the value model assumes distinct
references (filter values are built independently of the items). -/
def jsStrictEq (a b : JsVal) : Bool :=
  match a, b with
  | .vStr x, .vStr y => x = y
  | .vNum x, .vNum y => x = y
  | .vBool x, .vBool y => x = y
  | .vNull, .vNull => true
  | .vUndefined, .vUndefined => true
  | _, _ => false

/-- Model of loose equality `==` after `ToPrimitive` (both sides already
primitive). -/
def loosePrimEq (a b : JsVal) : Bool :=
  match a, b with
  | .vNull, .vNull => true
  | .vNull, .vUndefined => true
  | .vUndefined, .vNull => true
  | .vUndefined, .vUndefined => true
  | .vNull, _ => false
  | _, .vNull => false
  | .vUndefined, _ => false
  | _, .vUndefined => false
  | .vStr x, .vStr y => x = y
  | a, b =>
    match jsToNum a, jsToNum b with
    | some x, some y => x = y
    | _, _ => false

/-- Model of loose equality `==`; objects compare to primitives through
`ToPrimitive`, to other objects by reference (assumed distinct). -/
def jsLooseEq (a b : JsVal) : Bool :=
  match a, b with
  | .vArr _, .vArr _ => false
  | .vArr _, .vObj _ => false
  | .vObj _, .vArr _ => false
  | .vObj _, .vObj _ => false
  | .vArr _, .vNull => false
  | .vObj _, .vNull => false
  | .vNull, .vArr _ => false
  | .vNull, .vObj _ => false
  | .vArr _, .vUndefined => false
  | .vObj _, .vUndefined => false
  | .vUndefined, .vArr _ => false
  | .vUndefined, .vObj _ => false
  | a, b => loosePrimEq (toPrim a) (toPrim b)

/-- The abstract relational comparison `a < b`: string-to-string compares
lexicographically, otherwise numerically (`NaN` operands yield `false`). -/
def jsRawLt (a b : JsVal) : Bool :=
  match toPrim a, toPrim b with
  | .vStr x, .vStr y => jsStrLt x y
  | x, y =>
    match jsToNum x, jsToNum y with
    | some m, some n => m < n
    | _, _ => false

/-- Are the two operands comparable (no `NaN` involved)? -/
def jsComparable (a b : JsVal) : Bool :=
  match toPrim a, toPrim b with
  | .vStr _, .vStr _ => true
  | x, y => (jsToNum x).isSome && (jsToNum y).isSome

/-- `a > b`. -/
def jsGtOp (a b : JsVal) : Bool := jsRawLt b a

/-- `a < b`. -/
def jsLtOp (a b : JsVal) : Bool := jsRawLt a b

/-- `a >= b` (false whenever the operands are incomparable). -/
def jsGeOp (a b : JsVal) : Bool := jsComparable a b && !jsRawLt a b

/-- `a <= b` (false whenever the operands are incomparable). -/
def jsLeOp (a b : JsVal) : Bool := jsComparable a b && !jsRawLt b a

/-- First field of an object literal with the given name. -/
def objLookup (fields : List (String × JsVal)) (k : String) : Option JsVal :=
  (fields.find? (fun kv => kv.1 = k)).map (fun kv => kv.2)

/-- JavaScript property assignment on an object literal: overwrite the
existing field in place, or append a new one. -/
def objAssign (fields : List (String × JsVal)) (k : String) (v : JsVal) :
    List (String × JsVal) :=
  if (fields.find? (fun kv => kv.1 = k)).isSome then
    fields.map (fun kv => if kv.1 = k then (kv.1, v) else kv)
  else
    fields ++ [(k, v)]

/-- Property read `item[p]` for a string property name.  Array reads
support numeric indices; reads on primitives yield `undefined` (string
character/length properties are not used by the library on this path).
A read on `null` would throw in JavaScript; it is unreachable from the
claims below and modelled as `undefined`. -/
def jsGetField (item : JsVal) (p : String) : JsVal :=
  match item with
  | .vObj fields => (objLookup fields p).getD .vUndefined
  | .vArr elems =>
    match strToNumAux p.data with
    | some n => (elems.get? n.toNat).getD .vUndefined
    | none => .vUndefined
  | _ => .vUndefined

/-- Property read `item[key]` with an arbitrary key value, which
JavaScript coerces to a property name through `ToString`. -/
def jsGet (item key : JsVal) : JsVal :=
  jsGetField item (jsToStr key)

/-! ## Instance state

The source keeps per-instance mutable state in `s_` and options in `o_`
(`search-light` IIFE source; the built `dist/search-light.js` is the same
code with `state_`/`settings_` field names). -/

/-- The `s_` record. -/
structure State where
  matchesL : List MatchRec := []   -- `matches` in the source (reserved token in Lean)
  partl : List MatchRec := []        -- `partial` in the source
  allItems : List MatchRec := []
  searchText : String := ""
  searchTerms : List String := []
  keys : List String := []
  filters : List Filter := []
  threshold : Int := 0
  error : Bool := false
  errorMessage : String := ""
  index : Int := 0
  lastIndex : Int := 0
  totalMatches : Int := 0
  ready : Bool := false
  complete : Bool := false
  searched : Bool := false
  collection : List (Key × JsVal) := []

/-- The `o_` record.  `caseSensitive` is `o_.case`; a custom sort callback
receives a match-to-item lookup plus the two match records and returns a
JavaScript number. -/
structure Options where
  collectionType : String := "array"
  caseSensitive : Bool := false
  baseThreshold : Int := 0
  sort : Bool := false
  customSort : Option ((MatchRec → JsVal) → MatchRec → MatchRec → Int) := none
  injectProperty : String := "searchResults"
  injectEnabled : Bool := false

/-- A `SearchLight` instance: state plus options. -/
structure SL where
  s : State
  o : Options

/-- The fresh instance literal built by `search` before the collection is
installed. -/
def initSL : SL := { s := {}, o := {} }

/-! ## Collection store -/

/-- Value for a key during collection construction (`collection[key]`). -/
def keyRead (items : JsVal) : Key → JsVal
  | .nat n =>
    match items with
    | .vArr elems => (elems.get? n).getD .vUndefined
    | _ => .vUndefined
  | .str s => jsGetField items s

/-- `fn_.collection_`: normalize the input into the key→item `Map`.
An array keeps its index keys, any other `typeof === 'object'` value its
own property names; everything else records the error state.  `null`
reaches `Object.keys` (because `typeof null === 'object'`) and throws. -/
def collection_ (sl : SL) (items : JsVal) : Except String SL :=
  match items with
  | .vArr elems =>
    let keys := (List.range elems.length).map Key.nat
    .ok { sl with s := { sl.s with
      collection := keys.map (fun k => (k, keyRead items k)),
      complete := false, searched := false } }
  | .vObj fields =>
    let keys := fields.map (fun kv => Key.str kv.1)
    .ok { sl with
      o := { sl.o with collectionType := "object" },
      s := { sl.s with
        collection := keys.map (fun k => (k, keyRead items k)),
        complete := false, searched := false } }
  | .vNull =>
    .error "TypeError: Cannot convert undefined or null to object"
  | _ =>
    .ok { sl with s := { sl.s with
      error := true,
      errorMessage := "Invalid collection type: " ++ typeofStr items,
      collection := [],
      complete := false, searched := false } }

/-- The public `search` entry point: a fresh instance bound to `items`. -/
def searchFn (items : JsVal) : Except String SL :=
  collection_ initSL items

/-! ## Constraint accumulator -/

/-- `.and(constraint)`: mark everything dirty, then accumulate a search
string or a normalized filter.  A two-element filter form gets operator
`'=='`; a constraint of unrecognized type is reported as a warning and
otherwise ignored.  A `null` constraint passes the `typeof === 'object'`
test and throws on the `constraint.key` read. -/
def andMethod (sl : SL) (c : JsVal) : Except String SL :=
  let st := { sl.s with ready := false, complete := false, searched := false }
  match c with
  | .vStr s =>
    .ok { sl with s := { st with searchText := jsTrim (st.searchText ++ " " ++ s) } }
  | .vArr l =>
    let key := (l.get? 0).getD .vUndefined
    let operator := (l.get? 1).getD .vUndefined
    let value := (l.get? 2).getD .vUndefined
    let f : Filter :=
      if isUndef value then ⟨key, .vStr "==", operator⟩ else ⟨key, operator, value⟩
    .ok { sl with s := { st with filters := st.filters ++ [f] } }
  | .vObj fields =>
    let key := (objLookup fields "key").getD .vUndefined
    let operator := (objLookup fields "operator").getD .vUndefined
    let value := (objLookup fields "value").getD .vUndefined
    let f : Filter :=
      if isUndef value then ⟨key, .vStr "==", operator⟩ else ⟨key, operator, value⟩
    .ok { sl with s := { st with filters := st.filters ++ [f] } }
  | .vNull =>
    .error "TypeError: Cannot read properties of null"
  | _ =>
    .ok { sl with s := st }   -- console.warn('Invalid constraint type: ', ...)

/-- `.for(constraint)`: clear the accumulated search text and filters,
then accumulate like `.and`; returns the same instance. -/
def forMethod (sl : SL) (c : JsVal) : Except String SL :=
  andMethod { sl with s := { sl.s with searchText := "", filters := [] } } c

/-- `.or(keys)`: add restricted search keys and mark dirty. -/
def orMethod (sl : SL) (ks : JsVal) : SL :=
  let st := { sl.s with ready := false, complete := false, searched := false }
  match ks with
  | .vStr s => { sl with s := { st with keys := st.keys ++ [s] } }
  | .vArr l => { sl with s := { st with keys := st.keys ++ l.map jsToStr } }
  | _ => { sl with s := st }

/-- `.in(keys)`: replace the restricted search keys. -/
def inMethod (sl : SL) (ks : JsVal) : SL :=
  orMethod { sl with s := { sl.s with keys := [] } } ks

/-- `.sorted()`. -/
def sortedM (sl : SL) : SL :=
  if sl.o.sort then sl
  else { sl with o := { sl.o with sort := true }, s := { sl.s with complete := false } }

/-- `.unsorted()`. -/
def unsortedM (sl : SL) : SL :=
  if sl.o.sort then
    { sl with o := { sl.o with sort := false }, s := { sl.s with complete := false } }
  else sl

/-- `.sortUsing(fn)`. -/
def sortUsingM (sl : SL) (f : (MatchRec → JsVal) → MatchRec → MatchRec → Int) : SL :=
  { sl with o := { sl.o with customSort := some f }, s := { sl.s with complete := false } }

/-- `.compareCase()`. -/
def compareCaseM (sl : SL) : SL :=
  if sl.o.caseSensitive then sl
  else { sl with o := { sl.o with caseSensitive := true },
                 s := { sl.s with complete := false, searched := false } }

/-- `.ignoreCase()`. -/
def ignoreCaseM (sl : SL) : SL :=
  if sl.o.caseSensitive then
    { sl with o := { sl.o with caseSensitive := false },
              s := { sl.s with complete := false, searched := false } }
  else sl

/-- `.withStats(property?)`. -/
def withStatsM (sl : SL) (property : Option String) : SL :=
  let o1 := { sl.o with injectEnabled := true }
  match property with
  | some p => { sl with o := { o1 with injectProperty := p } }
  | none => { sl with o := o1 }

/-- `.withoutStats()`. -/
def withoutStatsM (sl : SL) : SL :=
  { sl with o := { sl.o with injectEnabled := false } }

/-! ## Relevance engine -/

/-- `i_.property_`: the searched value of one restricted key, i.e.
`item[property] || null` (`||` keeps a truthy left operand, otherwise
yields the right one). -/
def property_ (item : JsVal) (p : String) : JsVal :=
  if isTruthy (jsGetField item p) then jsGetField item p else .vNull

/-- `i_.search_`: count the occurrences of one term in the subject as
`subject.split(term).length - 1`; a truthy (non-zero) count adds to the
relevance, a zero count appends the term to the missing record. -/
def search_ (m : MatchRec) (subject term : String) : MatchRec :=
  let relevance : Int := (jsSplit term subject).length - 1
  if relevance ≠ 0 then { m with rel := m.rel + relevance }
  else { m with missing := m.missing ++ " " ++ term }

/-- A JavaScript boolean added to a number. -/
def boolInt (b : Bool) : Int := if b then 1 else 0

/-- `i_.filter_`: on a non-string item, add the boolean outcome of the
comparison the operator selects; an unrecognized operator is reported as
a warning and contributes nothing. -/
def filter_ (item : JsVal) (m : MatchRec) (f : Filter) : MatchRec :=
  if typeofStr item = "string" then m
  else
    match f.op with
    | .vStr "==" => { m with rel := m.rel + boolInt (jsLooseEq (jsGet item f.key) f.value) }
    | .vStr "===" => { m with rel := m.rel + boolInt (jsStrictEq (jsGet item f.key) f.value) }
    | .vStr "!=" => { m with rel := m.rel + boolInt (!jsLooseEq (jsGet item f.key) f.value) }
    | .vStr "!==" => { m with rel := m.rel + boolInt (!jsStrictEq (jsGet item f.key) f.value) }
    | .vStr ">" => { m with rel := m.rel + boolInt (jsGtOp (jsGet item f.key) f.value) }
    | .vStr ">=" => { m with rel := m.rel + boolInt (jsGeOp (jsGet item f.key) f.value) }
    | .vStr "<" => { m with rel := m.rel + boolInt (jsLtOp (jsGet item f.key) f.value) }
    | .vStr "<=" => { m with rel := m.rel + boolInt (jsLeOp (jsGet item f.key) f.value) }
    | _ => m   -- console.warn('Invalid filter operator:', ...)

/-- `i_.reduceProperties_`: note the string concatenation `'|' + item[key]`,
so every property contributes a leading bar and `null`/`undefined` values
stringify as words (unlike a join). -/
def reduceProperties_ (item : JsVal) (subject : String) (k : String) : String :=
  subject ++ ("|" ++ jsToStr (jsGetField item k))

/-- The subject string of an item before case folding, following
`i_.calculateRelevance_`: a string item is its own subject; with
restricted keys the keys map through `property_` and join with `'|'`;
otherwise an array joins its elements and an object reduces over
`Object.keys`.  (`Object.keys` of a primitive is empty; of `null` it
would throw, which no claim exercises.) -/
def subjectFor (skeys : List String) (item : JsVal) : String :=
  match item with
  | .vStr s => s
  | _ =>
    if skeys.length ≠ 0 then
      jsJoin "|" (skeys.map (fun k => property_ item k))
    else
      match item with
      | .vArr elems => jsJoin "|" elems
      | .vObj fields => (fields.map Prod.fst).foldl (reduceProperties_ item) ""
      | _ => ([] : List String).foldl (reduceProperties_ item) ""

/-- The subject after the optional case folding step. -/
def foldedSubject (o : Options) (skeys : List String) (item : JsVal) : String :=
  if !o.caseSensitive then jsLower (subjectFor skeys item) else subjectFor skeys item

/-- The match record `i_.calculateRelevance_` computes for one item
before classification: filters first, then every search term against the
case-folded subject. -/
def computeMatch (o : Options) (filters : List Filter) (skeys : List String)
    (terms : List String) (item : JsVal) (key : Key) : MatchRec :=
  let m0 : MatchRec := ⟨key, 0, ""⟩
  let m1 := filters.foldl (fun m f => filter_ item m f) m0
  terms.foldl (fun m t => search_ m (foldedSubject o skeys item) t) m1

/-- The classification tail of `i_.calculateRelevance_`: push onto
`allItems`, then onto the bucket the threshold comparison selects
(relevance `0` goes to neither bucket). -/
def classifyMatch (st : State) (m : MatchRec) : State :=
  let st1 := { st with allItems := st.allItems ++ [m] }
  if m.rel = 0 then st1
  else if m.rel < st.threshold then { st1 with partl := st1.partl ++ [m] }
  else { st1 with matchesL := st1.matchesL ++ [m] }

/-- `i_.calculateRelevance_`. -/
def calculateRelevance_ (o : Options) (st : State) (item : JsVal) (key : Key) : State :=
  classifyMatch st (computeMatch o st.filters st.keys st.searchTerms item key)

/-- `i_.emptyMatch_`. -/
def emptyMatch_ (key : Key) : MatchRec := ⟨key, 0, ""⟩

/-! ## Match classifier and cache -/

/-- The search terms recomputed from the raw search text: empty text
yields no terms, otherwise the (case folded unless case-sensitive) text
splits on single spaces. -/
def computedTerms (sl : SL) : List String :=
  if sl.s.searchText = "" then []
  else jsSplit " "
    (if sl.o.caseSensitive then sl.s.searchText else jsLower sl.s.searchText)

/-- The classification threshold: the configurable base plus the filter
count plus the boolean `searchTerms.length > 0`. -/
def computedThreshold (sl : SL) : Int :=
  sl.o.baseThreshold + sl.s.filters.length
    + (if (computedTerms sl).length > 0 then 1 else 0)

/-- `fn_.updateConstraints_`: when the terms are dirty, recompute them
and the threshold. -/
def updateConstraints_ (sl : SL) : SL :=
  if sl.s.ready then sl
  else
    { sl with s := { sl.s with
        searchTerms := computedTerms sl,
        threshold := computedThreshold sl,
        ready := true } }

/-- `fn_.isConstrained` together with its state update. -/
def isConstrained_ (sl : SL) : SL × Bool :=
  let sl1 := updateConstraints_ sl
  (sl1, sl1.s.searchTerms.length != 0 || sl1.s.filters.length != 0)

/-- `fn_.performSearch_`: when constrained, reset the buckets and fold
`calculateRelevance_` over the collection in iteration order; otherwise
every key yields an empty match and the whole collection matches.  (In
the source the unconstrained branch aliases `matches` and `allItems` to
one array object; the model keeps equal values.) -/
def performSearch_ (sl : SL) : SL :=
  let p := isConstrained_ sl
  let sl1 := p.1
  if p.2 then
    let st0 := { sl1.s with allItems := [], matchesL := [], partl := [] }
    let st1 := sl1.s.collection.foldl
      (fun st kv => calculateRelevance_ sl1.o st kv.2 kv.1) st0
    { sl1 with s := { st1 with searched := true } }
  else
    let em := sl1.s.collection.map (fun kv => emptyMatch_ kv.1)
    { sl1 with s := { sl1.s with
        allItems := em, matchesL := em, partl := [], searched := true } }

/-! ## Result sorter -/

/-- The `<` comparison on two collection keys.  Within one collection all
keys are array indices or all are property names; the cross-constructor
cases never arise at runtime and are fixed arbitrarily (but totally). -/
def jsKeyLt : Key → Key → Bool
  | .nat a, .nat b => a < b
  | .str a, .str b => jsStrLt a b
  | .nat _, .str _ => true
  | .str _, .nat _ => false

/-- `i_.sortComparator_`; in the tie branch the source returns the
boolean `matchB[0] < matchA[0]`, which `Array.prototype.sort` coerces to
`0` or `1`. -/
def sortComparator_ (matchA matchB : MatchRec) : Int :=
  if matchB.rel > matchA.rel then 1
  else if matchB.rel = matchA.rel then (if jsKeyLt matchB.key matchA.key then 1 else 0)
  else -1

/-- A comparator-driven sort: `Array.prototype.sort` keeps `a` before `b`
whenever `cmp a b ≤ 0` and is stable (ES2019).  A stable sort against a
total preorder has a unique result, here produced by insertion sort. -/
def jsSortBy (cmp : MatchRec → MatchRec → Int) (l : List MatchRec) : List MatchRec :=
  List.insertionSort (fun a b => cmp a b ≤ 0) l

/-- `fn_.getItem_`: read the stored item of a match from the collection
`Map` (`undefined` when absent). -/
def getItem_ (sl : SL) (m : MatchRec) : JsVal :=
  (List.lookup m.key sl.s.collection).getD .vUndefined

/-- `fn_.performSort_`: the default relevance sort runs only when
sorting is enabled, the instance is constrained and the list is
non-empty (the `&&` short-circuit order is preserved, so `isConstrained`
only runs when sorting is enabled); a custom comparator, when set, then
sorts again regardless. -/
def performSort_ (sl : SL) (l : List MatchRec) : SL × List MatchRec :=
  let q :=
    if sl.o.sort then
      let p := isConstrained_ sl
      if p.2 && l.length != 0 then (p.1, jsSortBy sortComparator_ l) else (p.1, l)
    else (sl, l)
  match q.1.o.customSort with
  | none => q
  | some f => (q.1, jsSortBy (f (getItem_ q.1)) q.2)

/-- `fn_.updateMatches_`: a no-op when the cached classification is
complete; otherwise search if needed, sort the matches bucket, and reset
the totals and iteration bounds. -/
def updateMatches_ (sl : SL) : SL :=
  if sl.s.complete then sl
  else
    let sl1 := if sl.s.searched then sl else performSearch_ sl
    let q := performSort_ sl1 sl1.s.matchesL
    { q.1 with s := { q.1.s with
        matchesL := q.2,
        totalMatches := (q.2.length : Int),
        index := 0,
        lastIndex := (q.2.length : Int) - 1,
        complete := true } }

/-! ## Output formatter -/

/-- The `{ relevance, missing }` stats object. -/
def statsObj (m : MatchRec) : JsVal :=
  .vObj [("relevance", .vNum m.rel), ("missing", .vStr m.missing)]

/-- Update the stored item under a key (the mutation JavaScript performs
on the object held in the collection `Map`). -/
def collUpdate (coll : List (Key × JsVal)) (k : Key) (v : JsVal) :
    List (Key × JsVal) :=
  coll.map (fun kv => if kv.1 = k then (kv.1, v) else kv)

/-- `fn_.getItemInject_`: push the stats onto an array item, or assign
them to a property of an object item, mutating the stored item in both
cases; any other item is returned unchanged.  (A `null` item would throw
in JavaScript since `typeof null === 'object'`; no claim exercises
that.) -/
def getItemInject_ (sl : SL) (m : MatchRec) : SL × JsVal :=
  let item := (List.lookup m.key sl.s.collection).getD .vUndefined
  match item with
  | .vArr elems =>
    let item1 := JsVal.vArr (elems ++ [statsObj m])
    ({ sl with s := { sl.s with
        collection := collUpdate sl.s.collection m.key item1 } }, item1)
  | .vObj fields =>
    let item1 := JsVal.vObj (objAssign fields sl.o.injectProperty (statsObj m))
    ({ sl with s := { sl.s with
        collection := collUpdate sl.s.collection m.key item1 } }, item1)
  | v => (sl, v)

/-- Render a key as a property name of the mapping-shaped output. -/
def keyToStr : Key → String
  | .nat n => toString n
  | .str s => s

/-- `fn_.toOriginalFormat_`: rebuild the original collection shape from a
match list, injecting stats into each returned (and stored) item when
enabled. -/
def toOriginalFormat_ (sl : SL) (l : List MatchRec) : SL × JsVal :=
  if sl.o.collectionType = "array" then
    if sl.o.injectEnabled then
      let r := l.foldl (fun (acc : SL × List JsVal) m =>
        let q := getItemInject_ acc.1 m
        (q.1, acc.2 ++ [q.2])) (sl, [])
      (r.1, .vArr r.2)
    else
      (sl, .vArr (l.map (getItem_ sl)))
  else
    if sl.o.injectEnabled then
      let r := l.foldl (fun (acc : SL × List (String × JsVal)) m =>
        let q := getItemInject_ acc.1 m
        (q.1, objAssign acc.2 (keyToStr m.key) q.2)) (sl, [])
      (r.1, .vObj r.2)
    else
      (sl, .vObj (l.foldl
        (fun acc m => objAssign acc (keyToStr m.key) (getItem_ sl m)) []))

/-! ## Accessors, promise support and the iterator entry -/

/-- The `matches` accessor. -/
def matchesGet (sl : SL) : SL × JsVal :=
  let sl1 := updateMatches_ sl
  toOriginalFormat_ sl1 sl1.s.matchesL

/-- The `partialMatches` accessor (sorts the bucket in place). -/
def partMatchesGet (sl : SL) : SL × JsVal :=
  let sl1 := updateMatches_ sl
  let q := performSort_ sl1 sl1.s.partl
  let sl2 := { q.1 with s := { q.1.s with partl := q.2 } }
  toOriginalFormat_ sl2 q.2

/-- The `allMatches` accessor (concatenates into a fresh array, so the
stored buckets are not re-ordered). -/
def allMatchesGet (sl : SL) : SL × JsVal :=
  let sl1 := updateMatches_ sl
  let q := performSort_ sl1 (sl1.s.matchesL ++ sl1.s.partl)
  toOriginalFormat_ q.1 q.2

/-- The `allItems` accessor (sorts `allItems` in place). -/
def allItemsGet (sl : SL) : SL × JsVal :=
  let sl1 := updateMatches_ sl
  let q := performSort_ sl1 sl1.s.allItems
  let sl2 := { q.1 with s := { q.1.s with allItems := q.2 } }
  toOriginalFormat_ sl2 q.2

/-- The `length` accessor. -/
def lengthGet (sl : SL) : SL × Int :=
  let sl1 := updateMatches_ sl
  (sl1, sl1.s.totalMatches)

/-- The promise body of `.then`: after an update pass the deferred
computation rejects with the recorded error message, or resolves with
the three result views. -/
def thenOutcome (sl : SL) : SL × Except String (JsVal × JsVal × JsVal) :=
  let sl1 := updateMatches_ sl
  if sl1.s.error then (sl1, .error sl1.s.errorMessage)
  else (sl1, .ok ((matchesGet sl1).2, (partMatchesGet sl1).2, (allMatchesGet sl1).2))

/-- The own property names reachable on an instance: its own `s_`/`o_`
slots plus the keys of the prototype literal (methods, accessors and the
`fn_`/`i_` helper namespace objects), as written in the source. -/
def instanceProps : List String :=
  ["s_", "o_",
   "search", "for", "and", "in", "or",
   "sorted", "unsorted", "sortUsing",
   "compareCase", "ignoreCase", "withStats", "withoutStats",
   "then", "catch",
   "length", "matches", "partialMatches", "allMatches", "allItems",
   "fn_", "i_"]

/-- The `[Symbol.iterator]` method.  Its body begins with
`this.updateMatches_()`, but `updateMatches_` is not a property of the
instance or its prototype (the function lives inside the `fn_` namespace
object), so the lookup yields `undefined` and the call throws.  Had the
lookup succeeded, the method would update the matches and pick the plain
or the stats-injecting iterator according to the inject option. -/
def symbolIterator (sl : SL) : Except String (SL × Bool) :=
  if instanceProps.contains "updateMatches_" then
    let sl1 := updateMatches_ sl
    .ok (sl1, sl1.o.injectEnabled)
  else
    .error "TypeError: this.updateMatches_ is not a function"

/-! ## Classification predicates (formalization devices)

The predicates below name the bucket conditions of `classifyMatch` so
that a whole classification pass can be described as `List.filter`. -/

/-- The matches a pass computes, in collection order. -/
def passMatches (sl1 : SL) : List MatchRec :=
  sl1.s.collection.map (fun kv =>
    computeMatch sl1.o sl1.s.filters sl1.s.keys sl1.s.searchTerms kv.2 kv.1)

/-- Full-match condition at threshold `th`. -/
def fullPred (th : Int) (m : MatchRec) : Bool :=
  decide (m.rel ≠ 0) && decide (th ≤ m.rel)

/-- Partial-match condition at threshold `th`. -/
def partPred (th : Int) (m : MatchRec) : Bool :=
  decide (m.rel ≠ 0) && decide (m.rel < th)

/-- The excluded bucket: every pass record in neither stored bucket. -/
def exclBucket (st : State) : List MatchRec :=
  st.allItems.filter (fun x => decide (x ∉ st.matchesL) && decide (x ∉ st.partl))

/-! ## Basic lemmas about the split scanner -/

theorem splitScan_ne_nil (sep : List Char) :
    ∀ (s : List Char) (k : Nat) (acc : List Char), splitScan sep s k acc ≠ [] := by
  intro s
  induction s with
  | nil => intro k acc; simp [splitScan]
  | cons c rest ih =>
    intro k acc
    match k with
    | Nat.succ j => exact ih j acc
    | 0 =>
      rw [splitScan]
      split
      · simp
      · exact ih 0 (acc ++ [c])

theorem jsSplit_ne_nil (sep s : String) (h : sep ≠ "") : jsSplit sep s ≠ [] := by
  have hd : sep.data ≠ [] := by
    intro hdata
    apply h
    cases sep with
    | mk l => cases hdata; rfl
  unfold jsSplit jsSplitChars
  match hsep : sep.data with
  | [] => exact absurd hsep hd
  | c :: cs => simpa using splitScan_ne_nil (c :: cs) s.data 0 []

/-! ## Field-preservation lemmas for `updateConstraints_` -/

@[simp] theorem uc_o (sl : SL) : (updateConstraints_ sl).o = sl.o := by
  unfold updateConstraints_; split <;> rfl

@[simp] theorem uc_collection (sl : SL) :
    (updateConstraints_ sl).s.collection = sl.s.collection := by
  unfold updateConstraints_; split <;> rfl

@[simp] theorem uc_filters (sl : SL) :
    (updateConstraints_ sl).s.filters = sl.s.filters := by
  unfold updateConstraints_; split <;> rfl

@[simp] theorem uc_keys (sl : SL) : (updateConstraints_ sl).s.keys = sl.s.keys := by
  unfold updateConstraints_; split <;> rfl

@[simp] theorem uc_searchText (sl : SL) :
    (updateConstraints_ sl).s.searchText = sl.s.searchText := by
  unfold updateConstraints_; split <;> rfl

@[simp] theorem uc_matchesL (sl : SL) :
    (updateConstraints_ sl).s.matchesL = sl.s.matchesL := by
  unfold updateConstraints_; split <;> rfl

@[simp] theorem uc_partl (sl : SL) : (updateConstraints_ sl).s.partl = sl.s.partl := by
  unfold updateConstraints_; split <;> rfl

@[simp] theorem uc_allItems (sl : SL) :
    (updateConstraints_ sl).s.allItems = sl.s.allItems := by
  unfold updateConstraints_; split <;> rfl

@[simp] theorem uc_complete (sl : SL) :
    (updateConstraints_ sl).s.complete = sl.s.complete := by
  unfold updateConstraints_; split <;> rfl

@[simp] theorem uc_searched (sl : SL) :
    (updateConstraints_ sl).s.searched = sl.s.searched := by
  unfold updateConstraints_; split <;> rfl

@[simp] theorem uc_error (sl : SL) : (updateConstraints_ sl).s.error = sl.s.error := by
  unfold updateConstraints_; split <;> rfl

@[simp] theorem uc_errorMessage (sl : SL) :
    (updateConstraints_ sl).s.errorMessage = sl.s.errorMessage := by
  unfold updateConstraints_; split <;> rfl

@[simp] theorem uc_ready (sl : SL) : (updateConstraints_ sl).s.ready = true := by
  unfold updateConstraints_
  split
  · assumption
  · rfl

theorem uc_of_ready (sl : SL) (h : sl.s.ready = true) : updateConstraints_ sl = sl := by
  unfold updateConstraints_; simp [h]

theorem uc_of_dirty (sl : SL) (h : sl.s.ready = false) :
    updateConstraints_ sl = { sl with s := { sl.s with
      searchTerms := computedTerms sl,
      threshold := computedThreshold sl,
      ready := true } } := by
  unfold updateConstraints_; simp [h]

/-- After an `updateConstraints_` from a dirty state, the stored terms
are the computed ones. -/
theorem uc_terms_of_dirty (sl : SL) (h : sl.s.ready = false) :
    (updateConstraints_ sl).s.searchTerms = computedTerms sl := by
  rw [uc_of_dirty sl h]

theorem uc_threshold_of_dirty (sl : SL) (h : sl.s.ready = false) :
    (updateConstraints_ sl).s.threshold = computedThreshold sl := by
  rw [uc_of_dirty sl h]

/-! ## The classification pass as a filter -/

theorem classifyMatch_eq (st : State) (m : MatchRec) :
    classifyMatch st m =
      { st with
        allItems := st.allItems ++ [m],
        matchesL := st.matchesL ++ (if fullPred st.threshold m then [m] else []),
        partl := st.partl ++ (if partPred st.threshold m then [m] else []) } := by
  unfold classifyMatch fullPred partPred
  by_cases h0 : m.rel = 0
  · simp [h0]
  · by_cases hlt : m.rel < st.threshold
    · simp [h0, hlt, not_le.mpr hlt]
    · simp [h0, hlt, not_lt.mp hlt]

theorem relevanceFold (o : Options) (l : List (Key × JsVal)) (st : State) :
    l.foldl (fun st kv => calculateRelevance_ o st kv.2 kv.1) st =
      { st with
        allItems := st.allItems ++
          l.map (fun kv => computeMatch o st.filters st.keys st.searchTerms kv.2 kv.1),
        matchesL := st.matchesL ++
          (l.map (fun kv => computeMatch o st.filters st.keys st.searchTerms kv.2 kv.1)).filter
            (fullPred st.threshold),
        partl := st.partl ++
          (l.map (fun kv => computeMatch o st.filters st.keys st.searchTerms kv.2 kv.1)).filter
            (partPred st.threshold) } := by
  induction l generalizing st with
  | nil => simp
  | cons a t ih =>
    rw [List.foldl_cons]
    show (t.foldl (fun st kv => calculateRelevance_ o st kv.2 kv.1)
      (calculateRelevance_ o st a.2 a.1)) = _
    rw [calculateRelevance_, classifyMatch_eq, ih]
    by_cases hf : fullPred st.threshold (computeMatch o st.filters st.keys st.searchTerms a.2 a.1)
    · by_cases hp : partPred st.threshold (computeMatch o st.filters st.keys st.searchTerms a.2 a.1)
      · simp [hf, hp, List.filter_cons]
      · simp [hf, hp, List.filter_cons]
    · by_cases hp : partPred st.threshold (computeMatch o st.filters st.keys st.searchTerms a.2 a.1)
      · simp [hf, hp, List.filter_cons]
      · simp [hf, hp, List.filter_cons]

/-! ## Characterizations of `performSearch_` -/

theorem isCon_fst (sl : SL) : (isConstrained_ sl).1 = updateConstraints_ sl := rfl

theorem performSearch_of_constrained (sl : SL) (h : (isConstrained_ sl).2 = true) :
    performSearch_ sl =
      { updateConstraints_ sl with s := { (updateConstraints_ sl).s with
          allItems := passMatches (updateConstraints_ sl),
          matchesL := (passMatches (updateConstraints_ sl)).filter
            (fullPred (updateConstraints_ sl).s.threshold),
          partl := (passMatches (updateConstraints_ sl)).filter
            (partPred (updateConstraints_ sl).s.threshold),
          searched := true } } := by
  simp only [performSearch_]
  rw [isCon_fst, h]
  simp only [if_true]
  rw [relevanceFold]
  rfl

theorem performSearch_of_unconstrained (sl : SL) (h : (isConstrained_ sl).2 = false) :
    performSearch_ sl =
      { updateConstraints_ sl with s := { (updateConstraints_ sl).s with
          allItems := (updateConstraints_ sl).s.collection.map (fun kv => emptyMatch_ kv.1),
          matchesL := (updateConstraints_ sl).s.collection.map (fun kv => emptyMatch_ kv.1),
          partl := [],
          searched := true } } := by
  simp only [performSearch_]
  rw [isCon_fst, h]
  simp only [Bool.false_eq_true, if_false]

@[simp] theorem ps_o (sl : SL) : (performSearch_ sl).o = sl.o := by
  cases hc : (isConstrained_ sl).2
  · rw [performSearch_of_unconstrained sl hc]; exact uc_o sl
  · rw [performSearch_of_constrained sl hc]; exact uc_o sl

@[simp] theorem ps_collection (sl : SL) :
    (performSearch_ sl).s.collection = sl.s.collection := by
  cases hc : (isConstrained_ sl).2
  · rw [performSearch_of_unconstrained sl hc]; exact uc_collection sl
  · rw [performSearch_of_constrained sl hc]; exact uc_collection sl

@[simp] theorem ps_filters (sl : SL) :
    (performSearch_ sl).s.filters = sl.s.filters := by
  cases hc : (isConstrained_ sl).2
  · rw [performSearch_of_unconstrained sl hc]; exact uc_filters sl
  · rw [performSearch_of_constrained sl hc]; exact uc_filters sl

@[simp] theorem ps_searchText (sl : SL) :
    (performSearch_ sl).s.searchText = sl.s.searchText := by
  cases hc : (isConstrained_ sl).2
  · rw [performSearch_of_unconstrained sl hc]; exact uc_searchText sl
  · rw [performSearch_of_constrained sl hc]; exact uc_searchText sl

@[simp] theorem ps_error (sl : SL) : (performSearch_ sl).s.error = sl.s.error := by
  cases hc : (isConstrained_ sl).2
  · rw [performSearch_of_unconstrained sl hc]; exact uc_error sl
  · rw [performSearch_of_constrained sl hc]; exact uc_error sl

@[simp] theorem ps_errorMessage (sl : SL) :
    (performSearch_ sl).s.errorMessage = sl.s.errorMessage := by
  cases hc : (isConstrained_ sl).2
  · rw [performSearch_of_unconstrained sl hc]; exact uc_errorMessage sl
  · rw [performSearch_of_constrained sl hc]; exact uc_errorMessage sl

@[simp] theorem ps_ready (sl : SL) : (performSearch_ sl).s.ready = true := by
  cases hc : (isConstrained_ sl).2
  · rw [performSearch_of_unconstrained sl hc]; exact uc_ready sl
  · rw [performSearch_of_constrained sl hc]; exact uc_ready sl

@[simp] theorem ps_searchTerms (sl : SL) :
    (performSearch_ sl).s.searchTerms = (updateConstraints_ sl).s.searchTerms := by
  cases hc : (isConstrained_ sl).2
  · rw [performSearch_of_unconstrained sl hc]
  · rw [performSearch_of_constrained sl hc]

@[simp] theorem ps_threshold (sl : SL) :
    (performSearch_ sl).s.threshold = (updateConstraints_ sl).s.threshold := by
  cases hc : (isConstrained_ sl).2
  · rw [performSearch_of_unconstrained sl hc]
  · rw [performSearch_of_constrained sl hc]

@[simp] theorem ps_searched (sl : SL) : (performSearch_ sl).s.searched = true := by
  cases hc : (isConstrained_ sl).2
  · rw [performSearch_of_unconstrained sl hc]
  · rw [performSearch_of_constrained sl hc]

/-! ## Helpers for `performSort_` and `updateMatches_` -/

@[simp] theorem psort_fst_o (sl : SL) (l : List MatchRec) :
    (performSort_ sl l).1.o = sl.o := by
  simp only [performSort_]
  cases hs : sl.o.sort
  · simp only [Bool.false_eq_true, if_false]
    cases hcs : sl.o.customSort <;> simp [hcs]
  · simp only [if_true, isCon_fst]
    cases hcnd : ((isConstrained_ sl).2 && l.length != 0)
    · simp only [Bool.false_eq_true, if_false]
      cases hcs : (updateConstraints_ sl).o.customSort <;> simp [hcs]
    · simp only [if_true]
      cases hcs : (updateConstraints_ sl).o.customSort <;> simp [hcs]

@[simp] theorem psort_fst_collection (sl : SL) (l : List MatchRec) :
    (performSort_ sl l).1.s.collection = sl.s.collection := by
  simp only [performSort_]
  cases hs : sl.o.sort
  · simp only [Bool.false_eq_true, if_false]
    cases hcs : sl.o.customSort <;> simp [hcs]
  · simp only [if_true, isCon_fst]
    cases hcnd : ((isConstrained_ sl).2 && l.length != 0)
    · simp only [Bool.false_eq_true, if_false]
      cases hcs : (updateConstraints_ sl).o.customSort <;> simp [hcs]
    · simp only [if_true]
      cases hcs : (updateConstraints_ sl).o.customSort <;> simp [hcs]

/-- With no custom comparator and an unconstrained instance the sort
leaves the list untouched and only refreshes the constraint cache. -/
theorem psort_of_unconstrained (sl : SL) (l : List MatchRec)
    (h2 : (isConstrained_ sl).2 = false) (hc : sl.o.customSort = none) :
    performSort_ sl l = (if sl.o.sort then updateConstraints_ sl else sl, l) := by
  have hco : (updateConstraints_ sl).o.customSort = none := by rw [uc_o]; exact hc
  simp only [performSort_]
  cases hs : sl.o.sort
  · simp only [Bool.false_eq_true, if_false]
    simp [hc]
  · simp only [if_true, isCon_fst]
    have hcnd : ((isConstrained_ sl).2 && l.length != 0) = false := by
      simp [h2]
    simp only [hcnd, Bool.false_eq_true, if_false]
    simp [hc, hco]

theorem updateMatches_of_complete (sl : SL) (h : sl.s.complete = true) :
    updateMatches_ sl = sl := by
  unfold updateMatches_; simp [h]

@[simp] theorem um_complete (sl : SL) : (updateMatches_ sl).s.complete = true := by
  simp only [updateMatches_]
  cases h : sl.s.complete
  · simp only [Bool.false_eq_true, if_false]
  · simp only [if_true]; exact h

theorem updateMatches_idem (sl : SL) :
    updateMatches_ (updateMatches_ sl) = updateMatches_ sl :=
  updateMatches_of_complete _ (um_complete sl)

@[simp] theorem um_o (sl : SL) : (updateMatches_ sl).o = sl.o := by
  simp only [updateMatches_]
  cases h : sl.s.complete
  · simp only [Bool.false_eq_true, if_false]
    cases hs : sl.s.searched
    · simp only [Bool.false_eq_true, if_false]
      rw [show (performSort_ (performSearch_ sl) (performSearch_ sl).s.matchesL).1.o
          = (performSearch_ sl).o from psort_fst_o _ _]
      exact ps_o sl
    · simp only [if_true]
      exact psort_fst_o _ _
  · simp only [if_true]

@[simp] theorem um_collection (sl : SL) :
    (updateMatches_ sl).s.collection = sl.s.collection := by
  simp only [updateMatches_]
  cases h : sl.s.complete
  · simp only [Bool.false_eq_true, if_false]
    cases hs : sl.s.searched
    · simp only [Bool.false_eq_true, if_false]
      rw [show (performSort_ (performSearch_ sl) (performSearch_ sl).s.matchesL).1.s.collection
          = (performSearch_ sl).s.collection from psort_fst_collection _ _]
      exact ps_collection sl
    · simp only [if_true]
      exact psort_fst_collection _ _
  · simp only [if_true]

/-! ## Claim C2 -/

/-- **C2.**  For every item and every search term `t`, the scoring pass
runs `search_` on the case-folded subject (first conjunct: `computeMatch`
folds `search_` over the terms with exactly that subject, after the
filter fold), and `search_` computes the occurrence count of `t` as
`subject.split(t).length - 1`, adds it to the relevance when it is
positive, and appends `t` space-separated to the missing-terms record
when it is zero. -/
theorem spec_c2 :
    (∀ (o : Options) (filters : List Filter) (skeys : List String)
        (terms : List String) (item : JsVal) (key : Key),
      computeMatch o filters skeys terms item key =
        terms.foldl (fun m t => search_ m (foldedSubject o skeys item) t)
          (filters.foldl (fun m f => filter_ item m f) ⟨key, 0, ""⟩)) ∧
    (∀ (m : MatchRec) (subject t : String),
      (0 < ((jsSplit t subject).length : Int) - 1 →
        search_ m subject t
          = { m with rel := m.rel + (((jsSplit t subject).length : Int) - 1) }) ∧
      (((jsSplit t subject).length : Int) - 1 = 0 →
        search_ m subject t = { m with missing := m.missing ++ " " ++ t })) := by
  constructor
  · intro o filters skeys terms item key
    rfl
  · intro m subject t
    constructor
    · intro h
      simp only [search_]
      rw [if_pos (by omega)]
    · intro h
      simp only [search_]
      rw [if_neg (by omega)]

theorem spec_c2_witness :
    search_ ⟨Key.nat 0, 0, ""⟩ "aa" "a" = ⟨Key.nat 0, 2, ""⟩ ∧
    search_ ⟨Key.nat 0, 0, ""⟩ "bb" "a" = ⟨Key.nat 0, 0, " a"⟩ := by
  constructor
  · exact ((spec_c2.2 ⟨Key.nat 0, 0, ""⟩ "aa" "a").1 (by decide)).trans (by decide)
  · exact ((spec_c2.2 ⟨Key.nat 0, 0, ""⟩ "bb" "a").2 (by decide)).trans (by decide)

/-! ## Claim C1 -/

/-- **C1.**  From a dirty constraint cache the recomputed classification
threshold is the configurable base plus the filter count plus one exactly
when any search terms exist, and a classification pass puts a record with
relevance `0` in neither bucket, one with `0 < relevance < threshold` in
the partial bucket, and one with `relevance ≥ threshold` in the full
bucket. -/
theorem spec_c1 (sl : SL)
    (hReady : sl.s.ready = false)
    (hBase : 0 ≤ sl.o.baseThreshold)
    (hCon : sl.s.filters ≠ [] ∨ sl.s.searchText ≠ "") :
    (updateConstraints_ sl).s.threshold
        = sl.o.baseThreshold + sl.s.filters.length
          + (if (updateConstraints_ sl).s.searchTerms ≠ [] then 1 else 0) ∧
    ∀ m ∈ (performSearch_ sl).s.allItems,
      (m.rel = 0 →
        m ∉ (performSearch_ sl).s.matchesL ∧ m ∉ (performSearch_ sl).s.partl) ∧
      (0 < m.rel → m.rel < (performSearch_ sl).s.threshold →
        m ∈ (performSearch_ sl).s.partl) ∧
      ((performSearch_ sl).s.threshold ≤ m.rel →
        m ∈ (performSearch_ sl).s.matchesL) := by
  have hterms : (updateConstraints_ sl).s.searchTerms = computedTerms sl :=
    uc_terms_of_dirty sl hReady
  have hth : (updateConstraints_ sl).s.threshold = computedThreshold sl :=
    uc_threshold_of_dirty sl hReady
  have htermsNeNil : sl.s.searchText ≠ "" → computedTerms sl ≠ [] := by
    intro ht
    unfold computedTerms
    rw [if_neg ht]
    apply jsSplit_ne_nil
    decide
  have hcon2 : (isConstrained_ sl).2 = true := by
    show ((updateConstraints_ sl).s.searchTerms.length != 0
        || (updateConstraints_ sl).s.filters.length != 0) = true
    rw [hterms, uc_filters]
    rcases hCon with hf | ht
    · have : sl.s.filters.length ≠ 0 := fun h => hf (List.length_eq_zero.mp h)
      simp [this]
    · have : (computedTerms sl).length ≠ 0 :=
        fun h => htermsNeNil ht (List.length_eq_zero.mp h)
      simp [this]
  have hthPos : 1 ≤ (updateConstraints_ sl).s.threshold := by
    rw [hth]
    unfold computedThreshold
    rcases hCon with hf | ht
    · have h1 : 1 ≤ sl.s.filters.length := by
        cases hfl : sl.s.filters with
        | nil => exact absurd hfl hf
        | cons a t => simp
      by_cases hn : (computedTerms sl).length > 0 <;> simp [hn] <;> omega
    · have h2 : (computedTerms sl).length > 0 :=
        List.length_pos.mpr (htermsNeNil ht)
      simp [h2]
      omega
  constructor
  · rw [hth, hterms]
    unfold computedThreshold
    by_cases hn : computedTerms sl = []
    · simp [hn]
    · simp [hn, List.length_pos.mpr hn]
  · rw [performSearch_of_constrained sl hcon2]
    intro m hm
    simp only at hm
    refine ⟨?_, ?_, ?_⟩
    · intro h0
      constructor
      · intro hmem
        have := (List.mem_filter.mp hmem).2
        simp [fullPred, h0] at this
      · intro hmem
        have := (List.mem_filter.mp hmem).2
        simp [partPred, h0] at this
    · intro hpos hlt
      simp only at hlt ⊢
      refine List.mem_filter.mpr ⟨hm, ?_⟩
      simp only [partPred, Bool.and_eq_true, decide_eq_true_eq]
      exact ⟨by omega, hlt⟩
    · intro hge
      simp only at hge ⊢
      refine List.mem_filter.mpr ⟨hm, ?_⟩
      simp only [fullPred, Bool.and_eq_true, decide_eq_true_eq]
      exact ⟨by omega, hge⟩

/-- A one-item, one-term instance for the C1 witness. -/
def w1 : SL :=
  { s := { searchText := "a", collection := [(Key.nat 0, JsVal.vStr "a")] }, o := {} }

theorem spec_c1_witness :
    (updateConstraints_ w1).s.threshold = 1 ∧
    MatchRec.mk (Key.nat 0) 1 "" ∈ (performSearch_ w1).s.matchesL := by
  have h := spec_c1 w1 rfl (by decide) (Or.inr (by decide))
  constructor
  · exact h.1.trans (by decide)
  · exact (h.2 ⟨Key.nat 0, 1, ""⟩ (by decide)).2.2 (by decide)

/-! ## Claim C4 -/

/-- **C4.**  After every classification pass `allItems` holds one record
per collection entry (its length is the collection size), and every
match record lands in exactly one of the full, partial and excluded
buckets: the multiplicities satisfy
`count allItems = count full + count partial + count excluded`. -/
theorem spec_c4 (sl : SL) :
    (performSearch_ sl).s.allItems.length = sl.s.collection.length ∧
    ∀ m : MatchRec,
      (performSearch_ sl).s.allItems.count m =
        (performSearch_ sl).s.matchesL.count m
          + (performSearch_ sl).s.partl.count m
          + (exclBucket (performSearch_ sl).s).count m := by
  cases hc : (isConstrained_ sl).2
  · rw [performSearch_of_unconstrained sl hc]
    constructor
    · simp
    · intro m
      simp only [exclBucket]
      have hnil : (((updateConstraints_ sl).s.collection.map
            (fun kv => emptyMatch_ kv.1)).filter
          (fun x => decide (x ∉ (updateConstraints_ sl).s.collection.map
              (fun kv => emptyMatch_ kv.1)) && decide (x ∉ ([] : List MatchRec)))) = [] := by
        rw [List.filter_eq_nil_iff]
        intro a ha
        simp only [Bool.and_eq_true, decide_eq_true_eq]
        rintro ⟨h1, h2⟩
        exact h1 ha
      simp only at hnil ⊢
      rw [hnil]
      simp
  · rw [performSearch_of_constrained sl hc]
    constructor
    · simp [passMatches]
    · intro m
      simp only [exclBucket]
      set A := passMatches (updateConstraints_ sl) with hA
      set th := (updateConstraints_ sl).s.threshold with hth
      have hcongr : (A.filter
          (fun x => decide (x ∉ A.filter (fullPred th)) && decide (x ∉ A.filter (partPred th))))
          = A.filter (fun x => !fullPred th x && !partPred th x) := by
        apply List.filter_congr
        intro x hx
        have h1 : (x ∈ A.filter (fullPred th)) ↔ fullPred th x = true := by
          rw [List.mem_filter]
          exact ⟨fun h => h.2, fun h => ⟨hx, h⟩⟩
        have h2 : (x ∈ A.filter (partPred th)) ↔ partPred th x = true := by
          rw [List.mem_filter]
          exact ⟨fun h => h.2, fun h => ⟨hx, h⟩⟩
        by_cases hf : fullPred th x = true
        · simp [h1, h2, hf]
        · by_cases hp : partPred th x = true
          · simp [h1, h2, hf, hp]
          · simp [h1, h2, hf, hp]
      simp only at hcongr ⊢
      rw [hcongr]
      by_cases hm : m ∈ A
      · have hcount : ∀ p : MatchRec → Bool,
            (A.filter p).count m = if p m then A.count m else 0 := by
          intro p
          by_cases hpm : p m = true
          · rw [if_pos hpm]
            exact List.count_filter hpm
          · rw [if_neg hpm]
            rw [List.count_eq_zero]
            intro hmem
            exact hpm (List.mem_filter.mp hmem).2
        rw [hcount, hcount, hcount]
        by_cases h0 : m.rel = 0
        · have hf : fullPred th m = false := by simp [fullPred, h0]
          have hp : partPred th m = false := by simp [partPred, h0]
          simp [hf, hp]
        · by_cases hlt : m.rel < th
          · have hf : fullPred th m = false := by
              simp [fullPred]
              intro _
              omega
            have hp : partPred th m = true := by simp [partPred, h0, hlt]
            simp [hf, hp]
          · have hf : fullPred th m = true := by
              simp [fullPred, h0]
              omega
            have hp : partPred th m = false := by
              simp [partPred]
              intro _
              omega
            simp [hf, hp]
      · have hz : A.count m = 0 := List.count_eq_zero.mpr hm
        have hz1 : (A.filter (fullPred th)).count m = 0 := by
          rw [List.count_eq_zero]
          intro hmem
          exact hm (List.mem_filter.mp hmem).1
        have hz2 : (A.filter (partPred th)).count m = 0 := by
          rw [List.count_eq_zero]
          intro hmem
          exact hm (List.mem_filter.mp hmem).1
        have hz3 : (A.filter (fun x => !fullPred th x && !partPred th x)).count m = 0 := by
          rw [List.count_eq_zero]
          intro hmem
          exact hm (List.mem_filter.mp hmem).1
        rw [hz, hz1, hz2, hz3]

/-! ## Claim C6 -/

/-- **C6.**  `.for(constraint)` first clears the accumulated search text
and filter list and then accumulates like `.and` (the source returns the
same instance, modelled by returning the updated state): text is
appended trimmed, a two-element filter form gets operator `'=='`, and a
recognized three-element filter is appended as given. -/
theorem spec_c6 (sl : SL) (c : JsVal) :
    forMethod sl c
      = andMethod { sl with s := { sl.s with searchText := "", filters := [] } } c ∧
    (∀ s : String, c = .vStr s →
      forMethod sl c = .ok { sl with s := { sl.s with
        ready := false, complete := false, searched := false,
        searchText := jsTrim s, filters := [] } }) ∧
    (∀ k v : JsVal, c = .vArr [k, v] →
      forMethod sl c = .ok { sl with s := { sl.s with
        ready := false, complete := false, searched := false,
        searchText := "", filters := [Filter.mk k (.vStr "==") v] } }) ∧
    (∀ k op v : JsVal, c = .vArr [k, op, v] → isUndef v = false →
      forMethod sl c = .ok { sl with s := { sl.s with
        ready := false, complete := false, searched := false,
        searchText := "", filters := [Filter.mk k op v] } }) := by
  refine ⟨rfl, ?_, ?_, ?_⟩
  · intro s hc
    subst hc
    rfl
  · intro k v hc
    subst hc
    rfl
  · intro k op v hc hv
    subst hc
    simp only [forMethod, andMethod]
    simp [hv]

theorem spec_c6_witness :
    (forMethod initSL (JsVal.vStr " x ")).map (fun sl2 => sl2.s.searchText)
      = .ok "x" ∧
    (forMethod initSL (JsVal.vArr [.vStr "n", .vStr ">=", .vNum 5])).map
        (fun sl2 => sl2.s.filters.length) = .ok 1 := by
  constructor
  · rw [(spec_c6 initSL (JsVal.vStr " x ")).2.1 " x " rfl]
    rfl
  · rw [(spec_c6 initSL (JsVal.vArr [.vStr "n", .vStr ">=", .vNum 5])).2.2.2
      (.vStr "n") (.vStr ">=") (.vNum 5) rfl rfl]
    rfl

/-! ## Claim C9 -/

/-- **C9.**  Requesting iteration never produces a sequence: the
`[Symbol.iterator]` body calls `this.updateMatches_()`, a property that
exists on neither the instance nor its prototype, so every iteration
request throws a `TypeError` (first conjunct).  Moreover, even routed to
`fn_.updateMatches_`, a completed pass is a no-op, so the shared
iteration index would not be reset for a restart (second conjunct). -/
theorem spec_c9 :
    (∀ sl : SL, symbolIterator sl
      = .error "TypeError: this.updateMatches_ is not a function") ∧
    (∀ sl : SL, sl.s.complete = true → updateMatches_ sl = sl) := by
  constructor
  · intro sl
    rfl
  · intro sl h
    exact updateMatches_of_complete sl h

/-- A completed instance for the C9 witness. -/
def w9 : SL := { s := { complete := true }, o := {} }

theorem spec_c9_witness :
    symbolIterator w9 = .error "TypeError: this.updateMatches_ is not a function" ∧
    updateMatches_ w9 = w9 :=
  ⟨spec_c9.1 w9, spec_c9.2 w9 rfl⟩

/-! ## Claim C10 -/

/-- **C10.**  On the restricted-keys subject path, a property whose
present value is falsy (`0`, `false` or `""`) is replaced by `null` by
`property_`, exactly as a missing property is; a join renders `null` as
the empty string; the joined subject only depends on the `property_`
values, and the restricted subject of an object item is that join; and no
non-empty term ever scores against an empty contribution. -/
theorem spec_c10 :
    (∀ v : JsVal, (v = .vNum 0 ∨ v = .vBool false ∨ v = .vStr "") →
      ∀ (fields : List (String × JsVal)) (k : String),
        objLookup fields k = some v →
        property_ (.vObj fields) k = .vNull) ∧
    (∀ (fields : List (String × JsVal)) (k : String),
      objLookup fields k = none →
      property_ (.vObj fields) k = .vNull) ∧
    joinPiece .vNull = "" ∧
    (∀ (ks : List String) (i1 i2 : JsVal),
      (∀ k ∈ ks, property_ i1 k = property_ i2 k) →
      jsJoin "|" (ks.map (fun k => property_ i1 k))
        = jsJoin "|" (ks.map (fun k => property_ i2 k))) ∧
    (∀ (ks : List String) (fields : List (String × JsVal)), ks.length ≠ 0 →
      subjectFor ks (.vObj fields)
        = jsJoin "|" (ks.map (fun k => property_ (.vObj fields) k))) ∧
    (∀ t : String, t ≠ "" → ((jsSplit t "").length : Int) - 1 = 0) := by
  refine ⟨?_, ?_, rfl, ?_, ?_, ?_⟩
  · intro v hv fields k hl
    have hg : jsGetField (.vObj fields) k = v := by simp [jsGetField, hl]
    unfold property_
    rw [hg]
    rcases hv with h | h | h <;> subst h <;> rfl
  · intro fields k hl
    have hg : jsGetField (.vObj fields) k = .vUndefined := by simp [jsGetField, hl]
    unfold property_
    rw [hg]
    rfl
  · intro ks i1 i2 h
    have hmap : ks.map (fun k => property_ i1 k) = ks.map (fun k => property_ i2 k) := by
      induction ks with
      | nil => rfl
      | cons a t ih =>
        simp only [List.map_cons]
        rw [h a (List.mem_cons_self a t), ih (fun k hk => h k (List.mem_cons_of_mem a hk))]
    unfold jsJoin
    rw [hmap]
  · intro ks fields hk
    simp [subjectFor, hk]
  · intro t ht
    have hd : t.data ≠ [] := by
      intro hdata
      apply ht
      cases t
      cases hdata
      rfl
    unfold jsSplit jsSplitChars
    match hsep : t.data with
    | [] => exact absurd hsep hd
    | c :: cs => simp [splitScan]

theorem spec_c10_witness :
    property_ (.vObj [("a", .vNum 0)]) "a" = .vNull ∧
    property_ (.vObj [("b", .vNum 1)]) "a" = .vNull ∧
    subjectFor ["a"] (.vObj [("a", .vNum 0)]) = "" ∧
    ((jsSplit "0" "").length : Int) - 1 = 0 := by
  refine ⟨?_, ?_, ?_, spec_c10.2.2.2.2.2 "0" (by decide)⟩
  · exact spec_c10.1 (.vNum 0) (Or.inl rfl) [("a", .vNum 0)] "a" rfl
  · exact spec_c10.2.1 [("b", .vNum 1)] "a" rfl
  · exact (spec_c10.2.2.2.2.1 ["a"] [("a", .vNum 0)] (by decide)).trans (by decide)

/-- `isConstrained` reports the same answer after a search pass. -/
theorem isConstrained_performSearch (sl : SL) :
    (isConstrained_ (performSearch_ sl)).2 = (isConstrained_ sl).2 := by
  show ((updateConstraints_ (performSearch_ sl)).s.searchTerms.length != 0
      || (updateConstraints_ (performSearch_ sl)).s.filters.length != 0)
    = ((updateConstraints_ sl).s.searchTerms.length != 0
      || (updateConstraints_ sl).s.filters.length != 0)
  rw [uc_of_ready _ (ps_ready sl), ps_searchTerms, ps_filters, uc_filters]

/-! ## Claim C3 -/

theorem uc_terms_unconstrained (sl : SL) (ht : sl.s.searchText = "")
    (hterms : sl.s.searchTerms = []) :
    (updateConstraints_ sl).s.searchTerms = [] := by
  unfold updateConstraints_
  split
  · exact hterms
  · simp [computedTerms, ht]

theorem unconstrained_of (sl : SL) (hf : sl.s.filters = [])
    (ht : sl.s.searchText = "") (hterms : sl.s.searchTerms = []) :
    (isConstrained_ sl).2 = false := by
  show ((updateConstraints_ sl).s.searchTerms.length != 0
      || (updateConstraints_ sl).s.filters.length != 0) = false
  rw [uc_terms_unconstrained sl ht hterms, uc_filters, hf]
  rfl

/-- The fields of the cached state after an unconstrained update pass:
every collection key yields an empty match, the whole collection is the
matches bucket and no sorting happens. -/
theorem updateMatches_unconstrained_fields (sl : SL)
    (hf : sl.s.filters = []) (ht : sl.s.searchText = "")
    (hterms : sl.s.searchTerms = [])
    (hcomp : sl.s.complete = false) (hsearch : sl.s.searched = false)
    (hcust : sl.o.customSort = none) :
    (updateMatches_ sl).s.matchesL
        = sl.s.collection.map (fun kv => emptyMatch_ kv.1) ∧
    (updateMatches_ sl).s.partl = [] ∧
    (updateMatches_ sl).s.allItems
        = sl.s.collection.map (fun kv => emptyMatch_ kv.1) ∧
    (updateMatches_ sl).s.ready = true ∧
    (updateMatches_ sl).s.searchTerms = [] ∧
    (updateMatches_ sl).s.filters = [] := by
  have hcU : (isConstrained_ sl).2 = false := unconstrained_of sl hf ht hterms
  have hU := performSearch_of_unconstrained sl hcU
  have hPm : (performSearch_ sl).s.matchesL
      = (updateConstraints_ sl).s.collection.map (fun kv => emptyMatch_ kv.1) := by
    rw [hU]
  have hPp : (performSearch_ sl).s.partl = [] := by rw [hU]
  have hPa : (performSearch_ sl).s.allItems
      = (updateConstraints_ sl).s.collection.map (fun kv => emptyMatch_ kv.1) := by
    rw [hU]
  have h2P : (isConstrained_ (performSearch_ sl)).2 = false := by
    rw [isConstrained_performSearch]; exact hcU
  have hcuP : (performSearch_ sl).o.customSort = none := by
    rw [ps_o]; exact hcust
  have hsq : ∀ l, performSort_ (performSearch_ sl) l = (performSearch_ sl, l) := by
    intro l
    rw [psort_of_unconstrained _ l h2P hcuP, uc_of_ready _ (ps_ready sl), ite_self]
  have hUM : updateMatches_ sl = { performSearch_ sl with s := { (performSearch_ sl).s with
      matchesL := (performSearch_ sl).s.matchesL,
      totalMatches := ((performSearch_ sl).s.matchesL.length : Int),
      index := 0,
      lastIndex := ((performSearch_ sl).s.matchesL.length : Int) - 1,
      complete := true } } := by
    simp only [updateMatches_, hcomp, Bool.false_eq_true, if_false, hsearch]
    rw [hsq]
  rw [hUM]
  refine ⟨?_, ?_, ?_, ?_, ?_, ?_⟩
  · show (performSearch_ sl).s.matchesL = _
    rw [hPm, uc_collection]
  · exact hPp
  · show (performSearch_ sl).s.allItems = _
    rw [hPa, uc_collection]
  · exact ps_ready sl
  · show (performSearch_ sl).s.searchTerms = []
    rw [ps_searchTerms]
    exact uc_terms_unconstrained sl ht hterms
  · show (performSearch_ sl).s.filters = []
    rw [ps_filters]
    exact hf

/-- **C3.**  With no accumulated filters and no accumulated search text
(and the default absence of a custom comparator), the update pass makes
every item a full match with relevance `0` — the match lists are the
per-key empty matches, independent of the item values, so no per-item
scoring runs — and the three accessors `matches`, `allMatches` and
`allItems` return the same formatted output. -/
theorem spec_c3 (sl : SL)
    (hf : sl.s.filters = []) (ht : sl.s.searchText = "")
    (hterms : sl.s.searchTerms = [])
    (hcomp : sl.s.complete = false) (hsearch : sl.s.searched = false)
    (hcust : sl.o.customSort = none) :
    (updateMatches_ sl).s.matchesL
        = sl.s.collection.map (fun kv => MatchRec.mk kv.1 0 "") ∧
    (updateMatches_ sl).s.partl = [] ∧
    (updateMatches_ sl).s.allItems = (updateMatches_ sl).s.matchesL ∧
    (∀ c' : List (Key × JsVal),
      c'.map Prod.fst = sl.s.collection.map Prod.fst →
      (updateMatches_ { sl with s := { sl.s with collection := c' } }).s.matchesL
        = (updateMatches_ sl).s.matchesL) ∧
    (matchesGet sl).2 = (allMatchesGet sl).2 ∧
    (allMatchesGet sl).2 = (allItemsGet sl).2 := by
  obtain ⟨hm, hp, ha, hr, hst, hsf⟩ :=
    updateMatches_unconstrained_fields sl hf ht hterms hcomp hsearch hcust
  have h2U : (isConstrained_ (updateMatches_ sl)).2 = false := by
    show ((updateConstraints_ (updateMatches_ sl)).s.searchTerms.length != 0
        || (updateConstraints_ (updateMatches_ sl)).s.filters.length != 0) = false
    rw [uc_of_ready _ hr, hst, hsf]
    rfl
  have hcuU : (updateMatches_ sl).o.customSort = none := by rw [um_o]; exact hcust
  have hkeyU : ∀ l, performSort_ (updateMatches_ sl) l = (updateMatches_ sl, l) := by
    intro l
    rw [psort_of_unconstrained _ l h2U hcuU, uc_of_ready _ hr, ite_self]
  refine ⟨hm, hp, by rw [ha, hm], ?_, ?_, ?_⟩
  · intro c' hkeys
    obtain ⟨hm', _, _, _, _, _⟩ :=
      updateMatches_unconstrained_fields { sl with s := { sl.s with collection := c' } }
        hf ht hterms hcomp hsearch hcust
    rw [hm', hm]
    show c'.map (fun kv => emptyMatch_ kv.1) = _
    calc c'.map (fun kv => emptyMatch_ kv.1)
        = (c'.map Prod.fst).map emptyMatch_ := by rw [List.map_map]; rfl
      _ = (sl.s.collection.map Prod.fst).map emptyMatch_ := by rw [hkeys]
      _ = sl.s.collection.map (fun kv => MatchRec.mk kv.1 0 "") := by rw [List.map_map]; rfl
  · simp only [matchesGet, allMatchesGet]
    rw [hkeyU ((updateMatches_ sl).s.matchesL ++ (updateMatches_ sl).s.partl)]
    rw [hp, List.append_nil]
  · simp only [allMatchesGet, allItemsGet]
    rw [hkeyU ((updateMatches_ sl).s.matchesL ++ (updateMatches_ sl).s.partl),
        hkeyU ((updateMatches_ sl).s.allItems)]
    show (toOriginalFormat_ (updateMatches_ sl)
        ((updateMatches_ sl).s.matchesL ++ (updateMatches_ sl).s.partl)).2
      = (toOriginalFormat_ (updateMatches_ sl) ((updateMatches_ sl).s.allItems)).2
    rw [hp, List.append_nil, ha, hm]

/-- A two-item unconstrained instance for the C3 witness. -/
def w3 : SL :=
  { s := { collection := [(Key.nat 0, JsVal.vStr "p"), (Key.nat 1, JsVal.vStr "q")] },
    o := { sort := true } }

theorem spec_c3_witness :
    (updateMatches_ w3).s.matchesL
        = [MatchRec.mk (Key.nat 0) 0 "", MatchRec.mk (Key.nat 1) 0 ""] ∧
    (matchesGet w3).2 = (allMatchesGet w3).2 := by
  have h := spec_c3 w3 rfl rfl rfl rfl rfl rfl
  exact ⟨h.1.trans (by decide), h.2.2.2.2.1⟩

/-! ## Claim C8 (corrected) -/

/-- The length of the single inner array of an array-shaped output; used
to observe the structure of consecutive `.matches` reads. -/
def probeLen (v : JsVal) : Nat :=
  match v with
  | .vArr [.vArr l] => l.length
  | _ => 0

/-- **C8 counterexample.**  With metadata injection enabled, each read of
`.matches` re-runs `getItemInject_`, which pushes another stats object
onto a stored array item: for the collection `[['a']]` constrained by
`'a'`, the first read returns the item with 2 elements and the second
read returns it with 3, so two consecutive reads with no intervening
mutation are not structurally identical. -/
theorem spec_c8_counterexample :
    ((searchFn (JsVal.vArr [JsVal.vArr [JsVal.vStr "a"]])).bind
        (fun sl0 => forMethod sl0 (JsVal.vStr "a"))).map (fun sl1 =>
      (probeLen (matchesGet (withStatsM sl1 none)).2,
        probeLen (matchesGet (matchesGet (withStatsM sl1 none)).1).2))
      = .ok (2, 3) := rfl

/-- **C8 (amended).**  With metadata injection disabled, a read of
`.matches` leaves the instance in exactly the `updateMatches_` state, the
update pass never touches the stored collection items, and a second
consecutive read returns a structurally identical result.  (With
injection enabled each read re-injects, mutating stored items — an array
item grows by one stats element per read, see the counterexample.) -/
theorem spec_c8_amended (sl : SL) (hInj : sl.o.injectEnabled = false) :
    (matchesGet sl).1 = updateMatches_ sl ∧
    (updateMatches_ sl).s.collection = sl.s.collection ∧
    (matchesGet ((matchesGet sl).1)).2 = (matchesGet sl).2 := by
  have hI : (updateMatches_ sl).o.injectEnabled = false := by rw [um_o]; exact hInj
  have h1 : (matchesGet sl).1 = updateMatches_ sl := by
    unfold matchesGet toOriginalFormat_
    by_cases hct : sl.o.collectionType = "array"
    · simp [hct, hInj]
    · simp [hct, hInj]
  refine ⟨h1, um_collection sl, ?_⟩
  rw [h1]
  unfold matchesGet
  rw [updateMatches_idem]

/-- A small instance for the C8 witness. -/
def w8 : SL := { s := { collection := [(Key.nat 0, JsVal.vStr "a")] }, o := {} }

theorem spec_c8_witness :
    (matchesGet w8).1 = updateMatches_ w8 ∧
    (updateMatches_ w8).s.collection = w8.s.collection ∧
    (matchesGet ((matchesGet w8).1)).2 = (matchesGet w8).2 :=
  spec_c8_amended w8 rfl

/-! ## Claim C7 (corrected) -/

/-- **C7 counterexample.**  The claim says the invalid-collection error is
recorded exactly when the input is not a sequence, mapping, or text; but
text input (`typeof === 'string'`) takes the error branch too, so the
flag is set for the string `"abc"`. -/
theorem spec_c7_counterexample :
    (searchFn (JsVal.vStr "abc")).map (fun sl => sl.s.error) = Except.ok true := rfl

/-- **C7 (amended).**  Initialization records the `InvalidCollectionType`
error exactly when the input is not an array and not of JavaScript type
`object` — in particular text input records the error too, and a `null`
input throws instead of recording it.  After such an error, `.then`
rejects with the recorded message through the deferred-failure path while
the synchronous accessors return empty results. -/
theorem spec_c7_amended (items : JsVal) :
    (items = .vNull →
      searchFn items = .error "TypeError: Cannot convert undefined or null to object") ∧
    (∀ sl : SL, searchFn items = .ok sl →
      ((sl.s.error = true) ↔ typeofStr items ≠ "object") ∧
      (sl.s.error = true →
        sl.s.errorMessage = "Invalid collection type: " ++ typeofStr items ∧
        (thenOutcome sl).2 = .error ("Invalid collection type: " ++ typeofStr items) ∧
        (matchesGet sl).2 = .vArr [] ∧
        (partMatchesGet sl).2 = .vArr [] ∧
        (allMatchesGet sl).2 = .vArr [] ∧
        (allItemsGet sl).2 = .vArr [] ∧
        (lengthGet sl).2 = 0)) := by
  cases items with
  | vNull =>
    constructor
    · intro _; rfl
    · intro sl h
      simp [searchFn, collection_] at h
  | vArr elems =>
    constructor
    · intro h; cases h
    · intro sl h
      simp only [searchFn, collection_] at h
      injection h with h1
      subst h1
      constructor
      · simp [initSL, typeofStr]
      · intro hcontra
        simp [initSL] at hcontra
  | vObj fields =>
    constructor
    · intro h; cases h
    · intro sl h
      simp only [searchFn, collection_] at h
      injection h with h1
      subst h1
      constructor
      · simp [initSL, typeofStr]
      · intro hcontra
        simp [initSL] at hcontra
  | vStr s =>
    constructor
    · intro h; cases h
    · intro sl h
      simp only [searchFn, collection_] at h
      injection h with h1
      subst h1
      refine ⟨by simp [typeofStr], fun _ => ⟨rfl, rfl, rfl, rfl, rfl, rfl, rfl⟩⟩
  | vNum n =>
    constructor
    · intro h; cases h
    · intro sl h
      simp only [searchFn, collection_] at h
      injection h with h1
      subst h1
      refine ⟨by simp [typeofStr], fun _ => ⟨rfl, rfl, rfl, rfl, rfl, rfl, rfl⟩⟩
  | vBool b =>
    constructor
    · intro h; cases h
    · intro sl h
      simp only [searchFn, collection_] at h
      injection h with h1
      subst h1
      refine ⟨by simp [typeofStr], fun _ => ⟨rfl, rfl, rfl, rfl, rfl, rfl, rfl⟩⟩
  | vUndefined =>
    constructor
    · intro h; cases h
    · intro sl h
      simp only [searchFn, collection_] at h
      injection h with h1
      subst h1
      refine ⟨by simp [typeofStr], fun _ => ⟨rfl, rfl, rfl, rfl, rfl, rfl, rfl⟩⟩

/-! ## Order theory of the default comparator (for claim C5) -/

theorem strLtB_irrefl (a : List Char) : strLtB a a = false := by
  induction a with
  | nil => rfl
  | cons c t ih => simp [strLtB, ih]

theorem strLtB_trans {a b c : List Char} (h1 : strLtB a b = true)
    (h2 : strLtB b c = true) : strLtB a c = true := by
  induction a generalizing b c with
  | nil =>
    cases c with
    | nil =>
      cases b with
      | nil => simp [strLtB] at h1
      | cons y ys => simp [strLtB] at h2
    | cons z zs => rfl
  | cons x xs ih =>
    cases b with
    | nil => simp [strLtB] at h1
    | cons y ys =>
      cases c with
      | nil => simp [strLtB] at h2
      | cons z zs =>
        simp only [strLtB] at h1 h2 ⊢
        by_cases hxy : x.toNat < y.toNat
        · by_cases hyz : y.toNat < z.toNat
          · simp [show x.toNat < z.toNat by omega]
          · by_cases hzy : z.toNat < y.toNat
            · simp [hyz, hzy] at h2
            · simp [show x.toNat < z.toNat by omega]
        · by_cases hyx : y.toNat < x.toNat
          · simp [hxy, hyx] at h1
          · simp only [hxy, hyx, if_false] at h1
            by_cases hyz : y.toNat < z.toNat
            · simp [show x.toNat < z.toNat by omega]
            · by_cases hzy : z.toNat < y.toNat
              · simp [hyz, hzy] at h2
              · simp only [hyz, hzy, if_false] at h2
                have hr := ih h1 h2
                simp [show ¬ x.toNat < z.toNat by omega,
                      show ¬ z.toNat < x.toNat by omega, hr]

theorem strLtB_trichotomy (a b : List Char) :
    strLtB a b = true ∨ a = b ∨ strLtB b a = true := by
  induction a generalizing b with
  | nil =>
    cases b with
    | nil => right; left; rfl
    | cons y ys => left; rfl
  | cons x xs ih =>
    cases b with
    | nil => right; right; rfl
    | cons y ys =>
      by_cases hxy : x.toNat < y.toNat
      · left; simp [strLtB, hxy]
      · by_cases hyx : y.toNat < x.toNat
        · right; right; simp [strLtB, hyx]
        · have hx : x = y := by
            have hn : x.toNat = y.toNat := by omega
            have hv : x.val = y.val := by
              unfold Char.toNat at hn
              exact UInt32.toNat.inj hn
            exact Char.ext hv
          rcases ih ys with h | h | h
          · left; simp [strLtB, hxy, hyx, h]
          · right; left; rw [hx, h]
          · right; right; simp [strLtB, hxy, hyx, h]

theorem strLtB_asymm {a b : List Char} (h : strLtB a b = true) :
    strLtB b a = false := by
  cases hba : strLtB b a
  · rfl
  · have hr := strLtB_trans h hba
    rw [strLtB_irrefl] at hr
    cases hr

theorem strLtB_negTrans {a b c : List Char} (h : strLtB a c = true) :
    strLtB a b = true ∨ strLtB b c = true := by
  rcases strLtB_trichotomy a b with h1 | h1 | h1
  · left; exact h1
  · subst h1; right; exact h
  · right; exact strLtB_trans h1 h

theorem sortCmp_le_iff (a b : MatchRec) :
    sortComparator_ a b ≤ 0
      ↔ (b.rel < a.rel ∨ (b.rel = a.rel ∧ jsKeyLt b.key a.key = false)) := by
  unfold sortComparator_
  by_cases h1 : b.rel > a.rel
  · rw [if_pos h1]
    constructor
    · intro h; exact absurd h (by norm_num)
    · rintro (h | ⟨h, _⟩) <;> omega
  · rw [if_neg h1]
    by_cases h2 : b.rel = a.rel
    · rw [if_pos h2]
      by_cases hkp : jsKeyLt b.key a.key = true
      · rw [if_pos hkp]
        constructor
        · intro h; exact absurd h (by norm_num)
        · rintro (h | ⟨_, h⟩)
          · omega
          · rw [hkp] at h; cases h
      · have hkf : jsKeyLt b.key a.key = false := by
          cases hkk : jsKeyLt b.key a.key
          · rfl
          · exact absurd hkk hkp
        rw [if_neg hkp]
        constructor
        · intro _; exact Or.inr ⟨h2, hkf⟩
        · intro _; norm_num
    · rw [if_neg h2]
      constructor
      · intro _; left; omega
      · intro _; norm_num

theorem jsKeyLt_asymm (a b : Key) (h : jsKeyLt a b = true) : jsKeyLt b a = false := by
  cases a with
  | nat x =>
    cases b with
    | nat y =>
      simp only [jsKeyLt, decide_eq_true_eq] at h
      simp only [jsKeyLt, decide_eq_false_iff_not]
      omega
    | str y => rfl
  | str x =>
    cases b with
    | nat y => simp [jsKeyLt] at h
    | str y =>
      simp only [jsKeyLt, jsStrLt] at h ⊢
      exact strLtB_asymm h

theorem jsKeyLt_negTrans (a b c : Key) (h : jsKeyLt a c = true) :
    jsKeyLt a b = true ∨ jsKeyLt b c = true := by
  cases a with
  | nat x =>
    cases c with
    | nat z =>
      simp only [jsKeyLt, decide_eq_true_eq] at h
      cases b with
      | nat y =>
        simp only [jsKeyLt, decide_eq_true_eq]
        omega
      | str y => left; rfl
    | str z =>
      cases b with
      | nat y => right; rfl
      | str y => left; rfl
  | str x =>
    cases c with
    | nat z => simp [jsKeyLt] at h
    | str z =>
      simp only [jsKeyLt, jsStrLt] at h
      cases b with
      | nat y => right; rfl
      | str y =>
        simp only [jsKeyLt, jsStrLt]
        exact strLtB_negTrans h

/-- The stable sort by the default comparator yields a list that is
pairwise ordered by the comparator relation. -/
theorem jsSortBy_default_pairwise (l : List MatchRec) :
    List.Pairwise (fun a b => sortComparator_ a b ≤ 0) (jsSortBy sortComparator_ l) := by
  haveI htot : IsTotal MatchRec (fun a b => sortComparator_ a b ≤ 0) := ⟨by
    intro a b
    rcases lt_trichotomy a.rel b.rel with h | h | h
    · right; rw [sortCmp_le_iff]; left; exact h
    · cases hk : jsKeyLt b.key a.key
      · left; rw [sortCmp_le_iff]; right; exact ⟨h.symm, hk⟩
      · right; rw [sortCmp_le_iff]; right; exact ⟨h, jsKeyLt_asymm _ _ hk⟩
    · left; rw [sortCmp_le_iff]; left; exact h⟩
  haveI htr : IsTrans MatchRec (fun a b => sortComparator_ a b ≤ 0) := ⟨by
    intro a b c hab hbc
    rw [sortCmp_le_iff] at hab hbc ⊢
    rcases hab with h1 | ⟨h1, hk1⟩ <;> rcases hbc with h2 | ⟨h2, hk2⟩
    · left; omega
    · left; omega
    · left; omega
    · right
      refine ⟨by omega, ?_⟩
      cases hk3 : jsKeyLt c.key a.key
      · rfl
      · rcases jsKeyLt_negTrans c.key b.key a.key hk3 with h | h
        · rw [h] at hk2; cases hk2
        · rw [h] at hk1; cases hk1⟩
  exact List.sorted_insertionSort (fun a b => sortComparator_ a b ≤ 0) l

/-- From a dirty state, either accumulated filters or a non-empty search
text makes the instance constrained. -/
theorem constrained_of (sl : SL) (hReady : sl.s.ready = false)
    (hCon : sl.s.filters ≠ [] ∨ sl.s.searchText ≠ "") :
    (isConstrained_ sl).2 = true := by
  show ((updateConstraints_ sl).s.searchTerms.length != 0
      || (updateConstraints_ sl).s.filters.length != 0) = true
  rw [uc_terms_of_dirty sl hReady, uc_filters]
  rcases hCon with hf | ht
  · have : sl.s.filters.length ≠ 0 := fun h => hf (List.length_eq_zero.mp h)
    simp [this]
  · have hne : computedTerms sl ≠ [] := by
      unfold computedTerms
      rw [if_neg ht]
      apply jsSplit_ne_nil
      decide
    have : (computedTerms sl).length ≠ 0 :=
      fun h => hne (List.length_eq_zero.mp h)
    simp [this]

/-- With sorting enabled, a constrained instance and no custom
comparator, the sorted output of `performSort_` is pairwise ordered by
the default comparator. -/
theorem psort_snd_pairwise (sl : SL) (l : List MatchRec)
    (hs : sl.o.sort = true) (hc : (isConstrained_ sl).2 = true)
    (hcust : sl.o.customSort = none) :
    List.Pairwise (fun a b => sortComparator_ a b ≤ 0) (performSort_ sl l).2 := by
  have hco : (updateConstraints_ sl).o.customSort = none := by rw [uc_o]; exact hcust
  simp only [performSort_, hs, if_true, isCon_fst]
  cases hlen : ((isConstrained_ sl).2 && l.length != 0)
  · simp only [Bool.false_eq_true, if_false]
    rw [hc] at hlen
    simp only [Bool.true_and] at hlen
    have : l = [] := by
      cases l with
      | nil => rfl
      | cons a t => simp at hlen
    subst this
    simp [hcust, hco]
  · simp only [if_true]
    simp only [hcust, hco]
    exact jsSortBy_default_pairwise l

/-! ## Claim C5 (corrected) -/

/-- **C5 counterexample.**  With sorting enabled but no constraints, the
default sort is skipped entirely (`performSort_` requires
`isConstrained`), so the matches of an object collection inserted in
descending key order stay in insertion order: two records of equal
relevance `0` appear with key `"b"` before the strictly smaller key
`"a"`, contradicting the claim that the lower key always precedes. -/
theorem spec_c5_counterexample :
    ((searchFn (.vObj [("b", .vStr "x"), ("a", .vStr "y")])).map (fun sl0 =>
      ((updateMatches_ (sortedM sl0)).s.matchesL,
        jsKeyLt (Key.str "a") (Key.str "b"))))
      = .ok ([⟨Key.str "b", 0, ""⟩, ⟨Key.str "a", 0, ""⟩], true) := rfl

/-- **C5 (amended).**  When sorting is enabled, no custom comparator is
set and the instance is constrained (from a dirty cache, as any
constraint mutation leaves it), the recomputed `.matches` bucket is
ordered by relevance descending, and on equal relevance the key of a
later record is never `<`-below the key of an earlier one (lower key
precedes higher key); when the instance is unconstrained the sort is
skipped and matches keep collection order. -/
theorem spec_c5 (sl : SL)
    (hSort : sl.o.sort = true)
    (hCust : sl.o.customSort = none)
    (hReady : sl.s.ready = false)
    (hComplete : sl.s.complete = false)
    (hCon : sl.s.filters ≠ [] ∨ sl.s.searchText ≠ "") :
    List.Pairwise
      (fun a b => b.rel ≤ a.rel ∧ (a.rel = b.rel → jsKeyLt b.key a.key = false))
      (updateMatches_ sl).s.matchesL := by
  have hc : (isConstrained_ sl).2 = true := constrained_of sl hReady hCon
  simp only [updateMatches_, hComplete, Bool.false_eq_true, if_false]
  cases hsearched : sl.s.searched
  · simp only [Bool.false_eq_true, if_false]
    have hs1 : (performSearch_ sl).o.sort = true := by rw [ps_o]; exact hSort
    have hc1 : (isConstrained_ (performSearch_ sl)).2 = true := by
      rw [isConstrained_performSearch]; exact hc
    have hcu1 : (performSearch_ sl).o.customSort = none := by rw [ps_o]; exact hCust
    have hp := psort_snd_pairwise (performSearch_ sl) (performSearch_ sl).s.matchesL
      hs1 hc1 hcu1
    refine List.Pairwise.imp ?_ hp
    intro a b h
    rcases (sortCmp_le_iff a b).mp h with h1 | ⟨h1, h2⟩
    · exact ⟨le_of_lt h1, fun heq => absurd h1 (by omega)⟩
    · exact ⟨le_of_eq h1, fun _ => h2⟩
  · simp only [if_true]
    have hp := psort_snd_pairwise sl sl.s.matchesL hSort hc hCust
    refine List.Pairwise.imp ?_ hp
    intro a b h
    rcases (sortCmp_le_iff a b).mp h with h1 | ⟨h1, h2⟩
    · exact ⟨le_of_lt h1, fun heq => absurd h1 (by omega)⟩
    · exact ⟨le_of_eq h1, fun _ => h2⟩

/-- A sorted, constrained three-item instance for the C5 witness. -/
def w5 : SL :=
  { s := { searchText := "a",
           collection := [(Key.nat 0, JsVal.vStr "b"), (Key.nat 1, JsVal.vStr "a a"),
                          (Key.nat 2, JsVal.vStr "a")] },
    o := { sort := true } }

theorem spec_c5_witness :
    List.Pairwise
      (fun a b => b.rel ≤ a.rel ∧ (a.rel = b.rel → jsKeyLt b.key a.key = false))
      (updateMatches_ w5).s.matchesL :=
  spec_c5 w5 rfl rfl rfl rfl (Or.inr (by decide))

theorem spec_c7_witness :
    (searchFn (JsVal.vNum 5)).map (fun sl => ((matchesGet sl).2, sl.s.error))
      = .ok (JsVal.vArr [], true) := by
  have h := spec_c7_amended (JsVal.vNum 5)
  rcases hs : searchFn (JsVal.vNum 5) with msg | sl
  · simp [searchFn, collection_] at hs
  · have hc := h.2 sl hs
    have herr : sl.s.error = true := hc.1.mpr (by decide)
    have hmat := (hc.2 herr).2.2.1
    simp only [Except.map]
    rw [hmat, herr]

end SearchLight
